import Mathlib

set_option maxHeartbeats 1000000

/- Shallow embedding of the QTPipeline LAS viewer (src/QTPipeline.py).

   Modelling conventions:
   * Python strings are lists of characters (`Str`), so that the string
     algorithms (`str.split`, `str.endswith`, `os.path.join`) have
     transparent, kernel-executable definitions.
   * numpy float64 arithmetic is modelled by exact rationals; Python
     `round(x, 3)` is modelled as rounding to the nearest multiple of
     1/1000 with ties to even (Python's documented rounding mode;
     binary floating-point representation artifacts are abstracted away).
   * The Qt widget state of `LASViewer` is an explicit `ViewerState`
     structure and each handler becomes a pure state-transition function.
     Qt selection-changed signals fired by `QListWidget.clear()` /
     `setCurrentRow` run `toggle_file_visibility` synchronously; the
     transition functions record the resulting net effect on
     `visible_files`. -/

abbrev Str := List Char

/-- Scaling factor for visualizing the Z-axis points (QTPipeline.py line 16). -/
def SCALING_FACTOR : ℚ := 100000

/-- A raw LAS file as read by laspy: per-point integer coordinates `X`/`Y`/`Z`,
the header's per-axis scale and offset, and optionally per-point
red/green/blue integer channels (line 39 checks their presence). -/
structure LASFile where
  X : List Int
  Y : List Int
  Z : List Int
  scaleX : ℚ
  scaleY : ℚ
  scaleZ : ℚ
  offsetX : ℚ
  offsetY : ℚ
  offsetZ : ℚ
  colors : Option (List (Nat × Nat × Nat))
deriving DecidableEq

/-- Real-world points of a LAS file (lines 24-28 and 35): per axis
`raw * scale + offset`, with the Z column further divided by
`SCALING_FACTOR`. -/
def buildPoints (f : LASFile) : List (ℚ × ℚ × ℚ) :=
  (f.X.zip (f.Y.zip f.Z)).map (fun t =>
    ((t.1 : ℚ) * f.scaleX + f.offsetX,
     (t.2.1 : ℚ) * f.scaleY + f.offsetY,
     ((t.2.2 : ℚ) * f.scaleZ + f.offsetZ) / SCALING_FACTOR))

/-- numpy `array.min()` over a column, as used on line 42 (raises on an
empty array in numpy; the `[]` case is never reached by `load_las_file`
because the point count was already checked). -/
def npMin : List ℚ → ℚ
  | [] => 0
  | x :: xs => xs.foldl min x

/-- numpy `array.max()` over a column, as used on line 43. -/
def npMax : List ℚ → ℚ
  | [] => 0
  | x :: xs => xs.foldl max x

/-- Channel values of line 41: the integer RGB triples divided by 255.0. -/
def rgbColors (cs : List (Nat × Nat × Nat)) : List (ℚ × ℚ × ℚ) :=
  cs.map (fun t => ((t.1 : ℚ) / 255, (t.2.1 : ℚ) / 255, (t.2.2 : ℚ) / 255))

/-- First (red) channel column of a color array. -/
def chan1 (l : List (ℚ × ℚ × ℚ)) : List ℚ := l.map (fun t => t.1)

/-- Second (green) channel column of a color array. -/
def chan2 (l : List (ℚ × ℚ × ℚ)) : List ℚ := l.map (fun t => t.2.1)

/-- Third (blue) channel column of a color array. -/
def chan3 (l : List (ℚ × ℚ × ℚ)) : List ℚ := l.map (fun t => t.2.2)

/-- Per-component normalization of lines 44-45:
`0.2 + (v - min) / (max - min) * 0.6`.  The division is exactly the
unguarded per-channel division of line 44 (in rationals `x / 0 = 0`
where numpy would produce NaN/inf with a warning; the point is that the
zero denominator is reachable, see the C5 theorem). -/
def adjComp (mn mx v : ℚ) : ℚ := 0.2 + (v - mn) / (mx - mn) * 0.6

/-- Lines 40-45: per-channel min-max normalization of the RGB data into
the band `[0.2, 0.8]`. -/
def rgbAdjusted (cs : List (Nat × Nat × Nat)) : List (ℚ × ℚ × ℚ) :=
  let colors := rgbColors cs
  colors.map (fun t =>
    (adjComp (npMin (chan1 colors)) (npMax (chan1 colors)) t.1,
     adjComp (npMin (chan2 colors)) (npMax (chan2 colors)) t.2.1,
     adjComp (npMin (chan3 colors)) (npMax (chan3 colors)) t.2.2))

/-- Failure modes of `load_las_file`: the explicit
`ValueError("No points found in the LAS file.")` of line 32 (`Empty`),
and every other exception caught by the `except` block of line 53
(`ReadFailed`): laspy read errors, numpy shape mismatches, pyvista
attribute-length errors.  The Python code maps all of them to the
return value `(None, False)` plus a printed message. -/
inductive LoadError
  | Empty
  | ReadFailed
deriving DecidableEq

/-- The `pv.PolyData` built by `load_las_file`: the point array plus the
point-data arrays the code assigns (`point_cloud['Colors']` on line 46 or
`point_cloud['Elevation']` on line 50; the code assigns exactly one). -/
structure PointCloud where
  points : List (ℚ × ℚ × ℚ)
  colorsAttr : Option (List (ℚ × ℚ × ℚ))
  elevationAttr : Option (List ℚ)
deriving DecidableEq

/-- Lines 19-56: load a single LAS file.  Success returns the point cloud
and the has-RGB flag; any exception path is a `LoadError`.  The two
`ReadFailed` guards model numpy's `vstack` failing on unequal column
lengths and pyvista rejecting a point-data array whose length differs
from the point count (both would raise and be caught on line 53). -/
def load_las_file (f : LASFile) : Except LoadError (PointCloud × Bool) :=
  if f.X.length = f.Y.length ∧ f.Y.length = f.Z.length then
    let points := buildPoints f
    if points.length = 0 then
      Except.error LoadError.Empty
    else
      match f.colors with
      | some cs =>
          if cs.length = points.length then
            Except.ok ({ points := points,
                         colorsAttr := some (rgbAdjusted cs),
                         elevationAttr := none }, true)
          else
            Except.error LoadError.ReadFailed
      | none =>
          Except.ok ({ points := points,
                       colorsAttr := none,
                       elevationAttr := some (points.map (fun p => p.2.2)) },
                     false)
  else
    Except.error LoadError.ReadFailed

/- ========= Python string helpers ========= -/

/-- Python `s.split(sep)` for a non-empty separator, on the character-list
model: scan left to right, cut at each non-overlapping occurrence of
`sep`.  (`acc` accumulates the chunk read so far.)  Python raises
on an empty separator; the definition is never used with `sep = []`. -/
def splitOnAux (sep : Str) (s : Str) (acc : Str) : List Str :=
  match s with
  | [] => [acc]
  | c :: rest =>
    if h : sep ≠ [] ∧ sep.isPrefixOf (c :: rest) then
      acc :: splitOnAux sep ((c :: rest).drop sep.length) []
    else
      splitOnAux sep rest (acc ++ [c])
termination_by s.length
decreasing_by
· simp only [List.length_drop, List.length_cons]
  have hl : 0 < sep.length := List.length_pos.mpr h.1
  omega
· simp only [List.length_cons]
  omega

/-- Python `s.split(sep)`. -/
def pySplit (s sep : Str) : List Str := splitOnAux sep s []

theorem splitOnAux_ne_nil (sep s acc : Str) : splitOnAux sep s acc ≠ [] := by
  induction s, acc using splitOnAux.induct sep with
  | case1 acc => simp [splitOnAux]
  | case2 acc c rest h ih => rw [splitOnAux, dif_pos h]; simp
  | case3 acc c rest h ih => rw [splitOnAux, dif_neg h]; exact ih

theorem two_le_splitOnAux_iff (sep : Str) (hsep : sep ≠ []) (s acc : Str) :
    2 ≤ (splitOnAux sep s acc).length ↔ ∃ l r, s = l ++ sep ++ r := by
  induction s, acc using splitOnAux.induct sep with
  | case1 acc =>
    simp only [splitOnAux, List.length_cons, List.length_nil]
    constructor
    · omega
    · rintro ⟨l, r, hl⟩
      exact absurd hl.symm (by simp [hsep])
  | case2 acc c rest h ih =>
    rw [splitOnAux, dif_pos h]
    constructor
    · intro _
      rcases List.isPrefixOf_iff_prefix.mp h.2 with ⟨t, ht⟩
      exact ⟨[], t, by simp [ht.symm]⟩
    · intro _
      have := splitOnAux_ne_nil sep ((c :: rest).drop sep.length) []
      simp only [List.length_cons]
      have hlen : 0 < (splitOnAux sep ((c :: rest).drop sep.length) []).length :=
        List.length_pos.mpr this
      omega
  | case3 acc c rest h ih =>
    rw [splitOnAux, dif_neg h]
    rw [ih]
    constructor
    · rintro ⟨l, r, hl⟩
      exact ⟨c :: l, r, by simp [hl]⟩
    · rintro ⟨l, r, hl⟩
      match l, hl with
      | [], hl =>
        exfalso
        apply h
        refine ⟨hsep, List.isPrefixOf_iff_prefix.mpr ⟨r, ?_⟩⟩
        simpa using hl.symm
      | c' :: l', hl =>
        have hc : c' = c ∧ rest = l' ++ sep ++ r := by
          have := hl
          simp only [List.cons_append, List.cons.injEq] at this
          exact ⟨this.1.symm, this.2⟩
        exact ⟨l', r, hc.2⟩

/-- Occurrences of `sep` inside `s`, counted by `str.split`: `s.split(sep)`
has at least two chunks exactly when `sep` occurs somewhere in `s`. -/
theorem two_le_pySplit_iff (s sep : Str) (hsep : sep ≠ []) :
    2 ≤ (pySplit s sep).length ↔ ∃ l r, s = l ++ sep ++ r :=
  two_le_splitOnAux_iff sep hsep s []

/-- The literal filename marker of line 242. -/
def markerStr : Str := "Detection_".data

/-- The candidate-file extension of lines 60 and 242. -/
def lasExt : Str := ".las".data

/-- Path separator used by `os.path` on POSIX. -/
def slashStr : Str := "/".data

/-- `os.path.join(folder, name)` for a relative `name` (the only shape
produced by iterating `os.listdir`). -/
def os_path_join (folder name : Str) : Str := folder ++ ('/' :: name)

/-- `os.path.basename(p)`: the part of the path after the last slash. -/
def os_path_basename (p : Str) : Str := (pySplit p slashStr).getLastD []

/-- The Detection-ID extraction of lines 241-242 (the `try` body of
`copy_detection_id` after fetching the selected record's path):
`file_name.split("Detection_")[1].split(".las")[0]`.  `none` models the
`IndexError` on `[1]` (marker absent from the full path), which line 244
catches and reports as an extraction failure.  The `[0]` index always
exists because `str.split` never returns an empty list. -/
def copy_detection_id (file_name : Str) : Option Str :=
  match pySplit file_name markerStr with
  | _ :: second :: _ => some ((pySplit second lasExt).headD [])
  | _ => none

/-- Failure mode of `load_las_files_from_folder` (lines 62-64): the
"Too Many Files" dialog followed by `return None`. -/
inductive IngestError
  | TooManyFiles
deriving DecidableEq

/-- Lines 59-66: folder ingestion.  `listing` is `os.listdir(folder_path)`;
candidate files are the entries whose name ends with the lowercase
`'.las'`, joined to the folder path.  More than 100 candidates aborts
before any file is read.  Otherwise the loader runs once per candidate
and failed loads are dropped.  The second component records, in order,
the paths actually passed to the loader (the per-file `load_las_file`
invocations), so that "zero loads" is expressible. -/
def load_las_files_from_folder
    (loader : Str → Except LoadError (PointCloud × Bool))
    (folder_path : Str) (listing : List Str) :
    Except IngestError (List (Str × (PointCloud × Bool))) × List Str :=
  let las_files :=
    (listing.filter (fun f => lasExt.isSuffixOf f)).map
      (fun f => os_path_join folder_path f)
  if 100 < las_files.length then
    (Except.error IngestError.TooManyFiles, [])
  else
    (Except.ok (las_files.filterMap (fun file =>
        match loader file with
        | Except.ok result => some (file, result)
        | Except.error _ => none)),
     las_files)

/- ========= Measurement and session state ========= -/

/-- A picked 3-D point (the `picked_point` array of `on_point_picked`;
index `[2]` of the array is the `z` field). -/
structure Point3 where
  x : ℚ
  y : ℚ
  z : ℚ
deriving DecidableEq

/-- Round a rational to the nearest integer, ties to even (the rounding
mode of Python's builtin `round`). -/
def roundHalfEven (q : ℚ) : ℤ :=
  let f := ⌊q⌋
  let r := q - f
  if r < 1 / 2 then f
  else if 1 / 2 < r then f + 1
  else if f % 2 = 0 then f else f + 1

/-- Python `round(x, 3)` on the exact-rational model of float64. -/
def pyRound3 (q : ℚ) : ℚ := (roundHalfEven (q * 1000) : ℚ) / 1000

/-- Primitive operations `on_point_picked` performs on the plotter's line
actors: `plotter.remove_actor(...)` (line 220) and the `add_mesh` of the
`pv.Line` (line 222).  Actors are identified by the numbers handed out by
`ViewerState.next_actor`. -/
inductive PlotterOp
  | removeActor (id : Nat)
  | addLine (id : Nat)
deriving DecidableEq

/-- Effect of one plotter operation on the list of live line actors. -/
def applyOp (actors : List Nat) : PlotterOp → List Nat
  | PlotterOp.removeActor i => actors.erase i
  | PlotterOp.addLine i => actors ++ [i]

/-- Effect of a sequence of plotter operations, in order. -/
def applyOps (actors : List Nat) (ops : List PlotterOp) : List Nat :=
  ops.foldl applyOp actors

/-- One entry of `self.las_data`: `(file_name, (point_cloud, has_rgb))`. -/
abbrev LASRecord := Str × PointCloud × Bool

/-- Placeholder record used only to give `List.getD` a default; every use
is guarded by an in-bounds proof. -/
def defaultRecord : LASRecord := ([], ⟨[], none, none⟩, false)

/-- The mutable state of `LASViewer` relevant to the session engine
(initialized on lines 129-133): the loaded records, the set of visible
file names, the pending measurement picks, the last drawn measurement
line, plus a model of the plotter's live line actors (`plotter_actors`)
and a fresh-id counter for new actors (`next_actor`). -/
structure ViewerState where
  las_data : List LASRecord
  visible_files : Finset Str
  selected_points : List Point3
  last_drawn_line : Option Nat
  plotter_actors : List Nat
  next_actor : Nat
deriving DecidableEq

/-- The state right after `LASViewer.__init__` (lines 129-133). -/
def initial_viewer_state : ViewerState :=
  { las_data := []
    visible_files := ∅
    selected_points := []
    last_drawn_line := none
    plotter_actors := []
    next_actor := 0 }

/-- Lines 186-197 `update_plot`: `plotter.clear()` removes every actor
(including a previously drawn measurement line, which is never re-added),
then the visible clouds are re-plotted.  Only the line actors are tracked
here, so the net state effect is emptying `plotter_actors`. -/
def update_plot (s : ViewerState) : ViewerState :=
  { s with plotter_actors := [] }

/-- Lines 200-203 `clear_all_files`: empty `visible_files`, clear the list
selection (its selection-changed signal recomputes the same empty set) and
re-plot. -/
def clear_all_files (s : ViewerState) : ViewerState :=
  update_plot { s with visible_files := ∅ }

/-- Lines 291-292 `get_visible_file_indexes`: indexes of the records whose
file name is in `visible_files` (the Python version enumerates
`las_data`; collecting the in-range indexes that match is the same list). -/
def get_visible_file_indexes (s : ViewerState) : List Nat :=
  (List.range s.las_data.length).filter
    (fun i => (s.las_data.getD i defaultRecord).1 ∈ s.visible_files)

/-- Python `max` on a list of indexes (raises on `[]`; modelled total, and
only ever reasoned about on non-empty lists). -/
def pyMaxNat : List Nat → Nat
  | [] => 0
  | x :: xs => xs.foldl max x

/-- Python `min` on a list of indexes (raises on `[]`). -/
def pyMinNat : List Nat → Nat
  | [] => 0
  | x :: xs => xs.foldl min x

/-- Observable outcome of `_navigate_las_files`: a move, the boundary
dialog ("This is the last/first LAS file."), or the no-selection warning. -/
inductive NavResult
  | moved
  | boundary (msg : Str)
  | noSelection
deriving DecidableEq

/-- Lines 273-288 `_navigate_las_files`.  On a move the code runs
`clear_all_files()`, selects row `boundary_index + step` (whose Qt
selection-changed signal makes exactly that file visible), adds the file
to `visible_files` and re-plots; the net state is a single visible file
and a cleared plotter.  At a boundary the state is untouched. -/
def navigate_las_files (s : ViewerState) (step : Int) (boundary_message : Str) :
    ViewerState × NavResult :=
  if s.visible_files = ∅ then
    (s, NavResult.noSelection)
  else
    let indexes := get_visible_file_indexes s
    let boundary_index : Nat := if 0 < step then pyMaxNat indexes else pyMinNat indexes
    if 0 ≤ (boundary_index : Int) + step ∧
        (boundary_index : Int) + step < (s.las_data.length : Int) then
      let next_index := ((boundary_index : Int) + step).toNat
      let r := s.las_data.getD next_index defaultRecord
      (update_plot { (clear_all_files s) with visible_files := {r.1} },
       NavResult.moved)
    else
      (s, NavResult.boundary boundary_message)

/-- Line 265-266 `next_las_file`. -/
def next_las_file (s : ViewerState) : ViewerState × NavResult :=
  navigate_las_files s 1 ("last".data)

/-- Line 269-270 `previous_las_file`. -/
def previous_las_file (s : ViewerState) : ViewerState × NavResult :=
  navigate_las_files s (-1) ("first".data)

/-- Result of one `on_point_picked` callback: the successor state, the
Z-distance reported by the dialog of line 216 (if a pair completed), and
the plotter operations performed, in program order. -/
structure PickOutcome where
  state : ViewerState
  report : Option ℚ
  ops : List PlotterOp
deriving DecidableEq

/-- Lines 211-224 `on_point_picked`: append the pick; once two picks are
pending, report `round(abs(SCALING_FACTOR * (p2[2] - p1[2])), 3)`, remove
the previously drawn line (if any), draw the new line, and clear the
pending picks - all inside the same callback. -/
def on_point_picked (s : ViewerState) (picked_point : Point3) : PickOutcome :=
  let pending := s.selected_points ++ [picked_point]
  match pending with
  | [point1, point2] =>
    let z_distance := pyRound3 |SCALING_FACTOR * (point2.z - point1.z)|
    let ops := (match s.last_drawn_line with
      | some a => [PlotterOp.removeActor a]
      | none => []) ++ [PlotterOp.addLine s.next_actor]
    { state := { s with
        selected_points := [],
        last_drawn_line := some s.next_actor,
        plotter_actors := applyOps s.plotter_actors ops,
        next_actor := s.next_actor + 1 },
      report := some z_distance,
      ops := ops }
  | _ =>
    { state := { s with selected_points := pending },
      report := none,
      ops := [] }

/-- Lines 155-183 `select_folder_and_load`, on the success path where the
folder dialog returned a folder and `load_las_files_from_folder` returned
a list `newData` (the `None` return for too many files leaves `las_data`
poisoned with Python `None` and is outside this state space).  With an
empty list the method only keeps the `las_data = []` assignment of line
162 and returns at line 169.  With a non-empty list it rebuilds the list
widget (the `clear()` and `setCurrentRow(0)` selection signals leave
exactly the first file visible, which line 181 adds again) and re-plots.
`selected_points` and `last_drawn_line` are never touched. -/
def select_folder_and_load (s : ViewerState) (newData : List LASRecord) :
    ViewerState :=
  match newData with
  | [] => { s with las_data := [] }
  | first :: _ =>
    update_plot { s with
      las_data := newData,
      visible_files := {first.1} }

/- ========= Generic foldl min/max lemmas ========= -/

theorem foldl_max_init_le {α : Type} [LinearOrder α] (xs : List α) (b : α) :
    b ≤ xs.foldl max b := by
  induction xs generalizing b with
  | nil => exact le_refl b
  | cons c xs ih => exact le_trans (le_max_left b c) (ih (max b c))

theorem le_foldl_max {α : Type} [LinearOrder α] {a : α} {xs : List α} (b : α)
    (h : a ∈ xs) : a ≤ xs.foldl max b := by
  induction xs generalizing b with
  | nil => cases h
  | cons c xs ih =>
    rcases List.mem_cons.mp h with hc | hm
    · subst hc
      exact le_trans (le_max_right b a) (foldl_max_init_le xs (max b a))
    · exact ih (max b c) hm

theorem foldl_max_mem {α : Type} [LinearOrder α] (xs : List α) (b : α) :
    xs.foldl max b = b ∨ xs.foldl max b ∈ xs := by
  induction xs generalizing b with
  | nil => exact Or.inl rfl
  | cons c xs ih =>
    rcases ih (max b c) with h | h
    · rcases max_choice b c with hb | hc
      · exact Or.inl (by rw [List.foldl_cons, h, hb])
      · exact Or.inr (by rw [List.foldl_cons, h, hc]; exact List.mem_cons_self c xs)
    · exact Or.inr (List.mem_cons_of_mem c h)

theorem le_foldl_min {α : Type} [LinearOrder α] (xs : List α) (b : α) :
    xs.foldl min b ≤ b := by
  induction xs generalizing b with
  | nil => exact le_refl b
  | cons c xs ih => exact le_trans (ih (min b c)) (min_le_left b c)

theorem foldl_min_le {α : Type} [LinearOrder α] {a : α} {xs : List α} (b : α)
    (h : a ∈ xs) : xs.foldl min b ≤ a := by
  induction xs generalizing b with
  | nil => cases h
  | cons c xs ih =>
    rcases List.mem_cons.mp h with hc | hm
    · subst hc
      exact le_trans (le_foldl_min xs (min b a)) (min_le_right b a)
    · exact ih (min b c) hm

theorem foldl_min_mem {α : Type} [LinearOrder α] (xs : List α) (b : α) :
    xs.foldl min b = b ∨ xs.foldl min b ∈ xs := by
  induction xs generalizing b with
  | nil => exact Or.inl rfl
  | cons c xs ih =>
    rcases ih (min b c) with h | h
    · rcases min_choice b c with hb | hc
      · exact Or.inl (by rw [List.foldl_cons, h, hb])
      · exact Or.inr (by rw [List.foldl_cons, h, hc]; exact List.mem_cons_self c xs)
    · exact Or.inr (List.mem_cons_of_mem c h)

theorem npMin_le {l : List ℚ} {a : ℚ} (h : a ∈ l) : npMin l ≤ a := by
  match l, h with
  | x :: xs, h =>
    rcases List.mem_cons.mp h with hc | hm
    · subst hc; exact le_foldl_min xs a
    · exact foldl_min_le x hm

theorem le_npMax {l : List ℚ} {a : ℚ} (h : a ∈ l) : a ≤ npMax l := by
  match l, h with
  | x :: xs, h =>
    rcases List.mem_cons.mp h with hc | hm
    · subst hc; exact foldl_max_init_le xs a
    · exact le_foldl_max x hm

theorem npMin_mem {l : List ℚ} (h : l ≠ []) : npMin l ∈ l := by
  match l, h with
  | x :: xs, _ =>
    rcases foldl_min_mem xs x with he | hm
    · rw [npMin, he]; exact List.mem_cons_self x xs
    · exact List.mem_cons_of_mem x hm

theorem npMax_mem {l : List ℚ} (h : l ≠ []) : npMax l ∈ l := by
  match l, h with
  | x :: xs, _ =>
    rcases foldl_max_mem xs x with he | hm
    · rw [npMax, he]; exact List.mem_cons_self x xs
    · exact List.mem_cons_of_mem x hm

theorem pyMaxNat_mem {l : List Nat} (h : l ≠ []) : pyMaxNat l ∈ l := by
  match l, h with
  | x :: xs, _ =>
    rcases foldl_max_mem xs x with he | hm
    · rw [pyMaxNat, he]; exact List.mem_cons_self x xs
    · exact List.mem_cons_of_mem x hm

theorem pyMinNat_mem {l : List Nat} (h : l ≠ []) : pyMinNat l ∈ l := by
  match l, h with
  | x :: xs, _ =>
    rcases foldl_min_mem xs x with he | hm
    · rw [pyMinNat, he]; exact List.mem_cons_self x xs
    · exact List.mem_cons_of_mem x hm

theorem le_pyMaxNat {l : List Nat} {a : Nat} (h : a ∈ l) : a ≤ pyMaxNat l := by
  match l, h with
  | x :: xs, h =>
    rcases List.mem_cons.mp h with hc | hm
    · subst hc; exact foldl_max_init_le xs a
    · exact le_foldl_max x hm

theorem pyMinNat_le {l : List Nat} {a : Nat} (h : a ∈ l) : pyMinNat l ≤ a := by
  match l, h with
  | x :: xs, h =>
    rcases List.mem_cons.mp h with hc | hm
    · subst hc; exact le_foldl_min xs a
    · exact foldl_min_le x hm

/- ========= Claim theorems ========= -/

/-- Concrete RGB LAS file whose red channel is constant (two points, both
with red value 7): the observed per-file minimum and maximum of the red
channel coincide. -/
def c5File : LASFile :=
  { X := [0, 1], Y := [0, 1], Z := [0, 1]
    scaleX := 1, scaleY := 1, scaleZ := 1
    offsetX := 0, offsetY := 0, offsetZ := 0
    colors := some [(7, 1, 2), (7, 5, 9)] }

/-- C5: for an RGB input file with one constant color channel the loader's
per-channel normalization divides by `max - min = 0`: the red-channel
denominator computed on line 44 is zero for `c5File`, and `load_las_file`
still takes the RGB branch and produces the adjusted colors - the
division is unguarded and the division-by-zero case is reachable. -/
theorem C5_division_by_zero_reachable :
    (∃ cs, c5File.colors = some cs ∧
        npMax (chan1 (rgbColors cs)) - npMin (chan1 (rgbColors cs)) = 0) ∧
    load_las_file c5File =
      Except.ok ({ points := buildPoints c5File,
                   colorsAttr := some (rgbAdjusted [(7, 1, 2), (7, 5, 9)]),
                   elevationAttr := none }, true) := by
  constructor
  · refine ⟨[(7, 1, 2), (7, 5, 9)], rfl, ?_⟩
    simp [npMax, npMin, chan1, rgbColors]
  · simp [load_las_file, c5File, buildPoints]

/-- C6: with more than 100 extension-matching candidate files the folder
ingestion fails with `TooManyFiles` and the loader-invocation log stays
empty - no file is ever passed to `load_las_file`. -/
theorem C6_too_many_files
    (loader : Str → Except LoadError (PointCloud × Bool))
    (folder_path : Str) (listing : List Str)
    (h : 100 < (listing.filter (fun f => lasExt.isSuffixOf f)).length) :
    load_las_files_from_folder loader folder_path listing =
      (Except.error IngestError.TooManyFiles, []) := by
  simp only [load_las_files_from_folder, List.length_map]
  rw [if_pos h]

/-- Witness for C6: a directory listing of 101 distinct `.las` names is
rejected with `TooManyFiles` and zero loader calls. -/
theorem C6_too_many_files_witness :
    100 < ((((List.range 101).map (fun i => Nat.toDigits 10 i ++ lasExt)).filter
        (fun f => lasExt.isSuffixOf f)).length) ∧
    load_las_files_from_folder (fun _ => Except.error LoadError.ReadFailed)
        (("d").data) ((List.range 101).map (fun i => Nat.toDigits 10 i ++ lasExt)) =
      (Except.error IngestError.TooManyFiles, []) :=
  ⟨by decide, C6_too_many_files _ _ _ (by decide)⟩

theorem join_right_injective (folder_path : Str) {f g : Str}
    (h : os_path_join folder_path f = os_path_join folder_path g) : f = g := by
  simp only [os_path_join] at h
  have := List.append_cancel_left h
  exact (List.cons.injEq _ _ _ _).mp this |>.2

theorem join_not_mem_candidates (folder_path f : Str) (listing : List Str)
    (hcase : lasExt.isSuffixOf f = false) :
    os_path_join folder_path f ∉
      (listing.filter (fun g => lasExt.isSuffixOf g)).map
        (fun g => os_path_join folder_path g) := by
  intro hmem
  rcases List.mem_map.mp hmem with ⟨g, hg, hjoin⟩
  have hgf : g = f := join_right_injective folder_path hjoin
  subst hgf
  have hpg := List.of_mem_filter hg
  rw [hcase] at hpg
  cases hpg

/-- C10: the candidate filter of line 60 is the case-sensitive test
`f.endswith('.las')`: an entry whose name does not end with the exact
lowercase suffix (for example `.LAS`) is never passed to the loader (it
never enters the invocation log) and never appears in the ingestion
result. -/
theorem C10_case_sensitive_extension
    (loader : Str → Except LoadError (PointCloud × Bool))
    (folder_path : Str) (listing : List Str) (f : Str)
    (hmem : f ∈ listing) (hcase : lasExt.isSuffixOf f = false) :
    os_path_join folder_path f ∉
        (load_las_files_from_folder loader folder_path listing).2 ∧
    ∀ res, (load_las_files_from_folder loader folder_path listing).1 =
        Except.ok res →
      ∀ pr ∈ res, pr.1 ≠ os_path_join folder_path f := by
  have hlog := join_not_mem_candidates folder_path f listing hcase
  simp only [load_las_files_from_folder]
  split_ifs with h100
  · exact ⟨List.not_mem_nil _, fun res hres => absurd hres (by simp)⟩
  · refine ⟨hlog, ?_⟩
    intro res hres pr hpr
    have hres' : res = _ := (Except.ok.injEq _ _).mp hres.symm
    subst hres'
    rcases List.mem_filterMap.mp hpr with ⟨file, hfile, hsome⟩
    have hpr1 : pr.1 = file := by
      cases hload : loader file <;> rw [hload] at hsome
      · cases hsome
      · cases hsome.symm
        rfl
    rw [hpr1]
    intro hcontra
    rw [hcontra] at hfile
    exact hlog hfile

/-- Witness for C10: in a listing containing `b.LAS` (uppercase
extension), that entry is excluded from the loader log and from the
ingestion result. -/
theorem C10_case_sensitive_extension_witness :
    (("b.LAS").data ∈ [("a.las").data, ("b.LAS").data]) ∧
    lasExt.isSuffixOf (("b.LAS").data) = false ∧
    os_path_join (("d").data) (("b.LAS").data) ∉
      (load_las_files_from_folder (fun _ => Except.error LoadError.ReadFailed)
        (("d").data) [("a.las").data, ("b.LAS").data]).2 :=
  ⟨by decide, by decide,
    (C10_case_sensitive_extension _ _ _ _ (by decide) (by decide)).1⟩

theorem rgbAdjusted_length (cs : List (Nat × Nat × Nat)) :
    (rgbAdjusted cs).length = cs.length := by
  simp [rgbAdjusted, rgbColors]

/-- C7: every successful load yields at least one point and exactly one
populated attribute array - `Colors` when the file has RGB channels,
`Elevation` otherwise - whose length equals the point count; and a file
whose resulting point count is zero fails with the `Empty` error (the
`ValueError` of line 32) instead of yielding a zero-length record. -/
theorem C7_record_invariants :
    (∀ (f : LASFile) (c : PointCloud) (b : Bool),
        load_las_file f = Except.ok (c, b) →
        1 ≤ c.points.length ∧
        (b = true → ∃ l, c.colorsAttr = some l ∧ c.elevationAttr = none ∧
            l.length = c.points.length) ∧
        (b = false → ∃ l, c.elevationAttr = some l ∧ c.colorsAttr = none ∧
            l.length = c.points.length)) ∧
    (∀ f : LASFile, f.X.length = f.Y.length → f.Y.length = f.Z.length →
        buildPoints f = [] →
        load_las_file f = Except.error LoadError.Empty) := by
  constructor
  · intro f c b h
    rcases hcol : f.colors with _ | cs
    · simp only [load_las_file, hcol] at h
      by_cases hsh : f.X.length = f.Y.length ∧ f.Y.length = f.Z.length
      · rw [if_pos hsh] at h
        by_cases hlen : (buildPoints f).length = 0
        · rw [if_pos hlen] at h
          cases h
        · rw [if_neg hlen] at h
          injection h with h1
          injection h1 with hA hb
          subst hA
          subst hb
          refine ⟨?_, ⟨fun habs => ?_,
            fun _ => ⟨(buildPoints f).map (fun p => p.2.2), rfl, rfl, ?_⟩⟩⟩
          · show 1 ≤ (buildPoints f).length
            omega
          · cases habs
          · simp
      · rw [if_neg hsh] at h
        cases h
    · simp only [load_las_file, hcol] at h
      by_cases hsh : f.X.length = f.Y.length ∧ f.Y.length = f.Z.length
      · rw [if_pos hsh] at h
        by_cases hlen : (buildPoints f).length = 0
        · rw [if_pos hlen] at h
          cases h
        · rw [if_neg hlen] at h
          by_cases hcs : cs.length = (buildPoints f).length
          · rw [if_pos hcs] at h
            injection h with h1
            injection h1 with hA hb
            subst hA
            subst hb
            refine ⟨?_, ⟨fun _ => ⟨rgbAdjusted cs, rfl, rfl, ?_⟩,
              fun habs => ?_⟩⟩
            · show 1 ≤ (buildPoints f).length
              omega
            · simpa [rgbAdjusted_length] using hcs
            · cases habs
          · rw [if_neg hcs] at h
            cases h
      · rw [if_neg hsh] at h
        cases h
  · intro f h1 h2 h3
    rw [load_las_file, if_pos ⟨h1, h2⟩, h3]
    simp

/-- Witness for C7: a one-point LAS file without RGB channels loads into
a one-point record whose only populated attribute is `Elevation`. -/
theorem C7_record_invariants_witness :
    load_las_file
        { X := [0], Y := [0], Z := [0], scaleX := 1, scaleY := 1, scaleZ := 1,
          offsetX := 0, offsetY := 0, offsetZ := 0, colors := none } =
      Except.ok ({ points := [(0, 0, 0)], colorsAttr := none,
                   elevationAttr := some [0] }, false) ∧
    1 ≤ (({ points := [(0, 0, 0)], colorsAttr := none,
            elevationAttr := some [0] } : PointCloud)).points.length := by
  have hload : load_las_file
      { X := [0], Y := [0], Z := [0], scaleX := 1, scaleY := 1, scaleZ := 1,
        offsetX := 0, offsetY := 0, offsetZ := 0, colors := none } =
      Except.ok ({ points := [(0, 0, 0)], colorsAttr := none,
                   elevationAttr := some [0] }, false) := by
    simp [load_las_file, buildPoints]
  exact ⟨hload, (C7_record_invariants.1 _ _ _ hload).1⟩

/-- C2: when a second pick completes a pair, the reported distance is
`round(abs(SCALING_FACTOR * (p2.z - p1.z)), 3)` where `SCALING_FACTOR`
is the same global constant `load_las_file` divides Z by (line 35 uses
`points[:, 2] /= SCALING_FACTOR`, line 215 multiplies by it again); in
particular picks at z = 0 and z = 5 report exactly 500000. -/
theorem C2_pair_distance (s : ViewerState) (p1 p2 : Point3)
    (h : s.selected_points = [p1]) :
    (on_point_picked s p2).report =
      some (pyRound3 |SCALING_FACTOR * (p2.z - p1.z)|) ∧
    SCALING_FACTOR = 100000 ∧
    pyRound3 |SCALING_FACTOR * ((5 : ℚ) - 0)| = 500000 := by
  refine ⟨?_, rfl, by norm_num [pyRound3, roundHalfEven, SCALING_FACTOR]⟩
  simp [on_point_picked, h]

/-- Witness for C2: from a one-pending-pick state at the origin, picking
`(0, 0, 5)` reports exactly 500000. -/
theorem C2_pair_distance_witness :
    ({ initial_viewer_state with
        selected_points := [⟨0, 0, 0⟩] } : ViewerState).selected_points =
      [(⟨0, 0, 0⟩ : Point3)] ∧
    (on_point_picked
        { initial_viewer_state with selected_points := [⟨0, 0, 0⟩] }
        ⟨0, 0, 5⟩).report = some 500000 := by
  refine ⟨rfl, ?_⟩
  have h := C2_pair_distance
    { initial_viewer_state with selected_points := [⟨0, 0, 0⟩] }
    ⟨0, 0, 0⟩ ⟨0, 0, 5⟩ rfl
  rw [h.1]
  have h3 := h.2.2
  norm_num at h3 ⊢
  convert h3 using 2

/-- A reachable session state: one record loaded and visible, one pick
already pending (the operator picked a single point, then reopens the
folder dialog). -/
def c8State : ViewerState :=
  { las_data := [(("a.las").data, ⟨[], none, none⟩, false)]
    visible_files := {("a.las").data}
    selected_points := [⟨0, 0, 1⟩]
    last_drawn_line := none
    plotter_actors := []
    next_actor := 0 }

/-- Counterexample to C8: accepting a new folder ingestion's result does
NOT clear `pendingPicks` - `select_folder_and_load` never touches
`selected_points` (no statement of lines 155-183 writes it), so the pick
pending before the reload is still pending afterwards; and the visible
set ends as the auto-selected first new record, not empty. -/
theorem C8_counterexample :
    (select_folder_and_load c8State
        [(("b.las").data, ⟨[], none, none⟩, false)]).selected_points =
      [(⟨0, 0, 1⟩ : Point3)] ∧
    (select_folder_and_load c8State
        [(("b.las").data, ⟨[], none, none⟩, false)]).selected_points ≠ [] ∧
    (select_folder_and_load c8State
        [(("b.las").data, ⟨[], none, none⟩, false)]).visible_files ≠ ∅ := by
  refine ⟨rfl, by decide, by decide⟩

/-- C8 amended: accepting a non-empty folder ingestion result replaces
the record list wholesale and sets the visible set to exactly the first
new record (the list rebuild plus `setCurrentRow(0)` drop all previous
visibility); the pending picks and the `last_drawn_line` slot are left
unchanged, and the plotter's drawn actors (including a previous
measurement line) are removed by the re-plot. -/
theorem C8_amended (s : ViewerState) (r : LASRecord) (rest : List LASRecord) :
    (select_folder_and_load s (r :: rest)).las_data = r :: rest ∧
    (select_folder_and_load s (r :: rest)).visible_files = {r.1} ∧
    (select_folder_and_load s (r :: rest)).selected_points = s.selected_points ∧
    (select_folder_and_load s (r :: rest)).last_drawn_line = s.last_drawn_line ∧
    (select_folder_and_load s (r :: rest)).plotter_actors = [] :=
  ⟨rfl, rfl, rfl, rfl, rfl⟩

theorem copy_detection_id_eq_none_iff (p : Str) :
    copy_detection_id p = none ↔ ¬ 2 ≤ (pySplit p markerStr).length := by
  cases hl : pySplit p markerStr with
  | nil => simp [copy_detection_id, hl]
  | cons a t =>
    cases t with
    | nil => simp [copy_detection_id, hl]
    | cons b t2 =>
      simp only [copy_detection_id, hl, List.length_cons]
      constructor
      · intro hc
        cases hc
      · intro hc
        exact absurd (by omega) hc

/-- Counterexample to C9: on the path `/data/Detection_7/scan.las` the
marker `Detection_` is absent from the filename (`scan.las`), yet
`copy_detection_id` does not fail - it finds the marker in the directory
part of the full path and returns `7/scan`.  This refutes "fails with
PatternNotFound exactly when the marker is absent from the filename". -/
theorem C9_counterexample :
    os_path_basename (("/data/Detection_7/scan.las").data) =
      ("scan.las").data ∧
    ¬ (∃ l r, os_path_basename (("/data/Detection_7/scan.las").data) =
        l ++ markerStr ++ r) ∧
    copy_detection_id (("/data/Detection_7/scan.las").data) =
      some (("7/scan").data) := by
  have hb : os_path_basename (("/data/Detection_7/scan.las").data) =
      ("scan.las").data := by
    simp +decide [os_path_basename, pySplit, splitOnAux, slashStr]
  refine ⟨hb, ?_, ?_⟩
  · rw [hb]
    intro hocc
    have h2 := (two_le_pySplit_iff (("scan.las").data) markerStr
      (by decide)).mpr hocc
    have hlen : (pySplit (("scan.las").data) markerStr).length = 1 := by
      simp +decide [pySplit, splitOnAux, markerStr]
    omega
  · simp +decide [copy_detection_id, pySplit, splitOnAux, markerStr, lasExt]

/-- C9 amended: `copy_detection_id` operates on the full source path, not
only the filename: it fails exactly when `Detection_` occurs nowhere in
the whole path, and on success returns the path segment after the first
`Detection_` (up to the next occurrence, if any) truncated at the first
`.las` inside it.  For a marker-free directory part and filename
`Detection_42.las` this yields `42`; with the marker in a directory name
it returns directory text instead (`7/scan` below). -/
theorem C9_amended :
    (∀ p : Str, copy_detection_id p = none ↔
        ¬ ∃ l r, p = l ++ markerStr ++ r) ∧
    copy_detection_id (("/data/Detection_42.las").data) =
      some (("42").data) ∧
    copy_detection_id (("/data/Detection_7/scan.las").data) =
      some (("7/scan").data) := by
  refine ⟨fun p => ?_, ?_, ?_⟩
  · rw [copy_detection_id_eq_none_iff p]
    exact not_congr (two_le_pySplit_iff p markerStr (by decide))
  · simp +decide [copy_detection_id, pySplit, splitOnAux, markerStr, lasExt]
  · simp +decide [copy_detection_id, pySplit, splitOnAux, markerStr, lasExt]

/-- Invariant of the measurement pipeline at externally observable
points: at most one pick is pending (a second pick completes and clears
within the same callback), at most one measurement-line actor is live,
and any live line actor is the one recorded in `last_drawn_line`. -/
def session_inv (s : ViewerState) : Prop :=
  s.selected_points.length ≤ 1 ∧
  s.plotter_actors.length ≤ 1 ∧
  ∀ a ∈ s.plotter_actors, s.last_drawn_line = some a

theorem actors_shape (s : ViewerState) (hinv : session_inv s) :
    s.plotter_actors = [] ∨
      ∃ i, s.last_drawn_line = some i ∧ s.plotter_actors = [i] := by
  rcases hp : s.plotter_actors with _ | ⟨a, t⟩
  · exact Or.inl rfl
  · have h3 := hinv.2.2
    have hlen := hinv.2.1
    rw [hp] at h3 hlen
    have ht : t = [] := by
      cases t with
      | nil => rfl
      | cons b t2 => simp at hlen
    subst ht
    exact Or.inr ⟨a, h3 a (List.mem_cons_self a []), rfl⟩

theorem pick_of_nil (s : ViewerState) (p : Point3)
    (hsel : s.selected_points = []) :
    on_point_picked s p =
      { state := { s with selected_points := [p] },
        report := none, ops := [] } := by
  simp [on_point_picked, hsel]

theorem pick_of_single (s : ViewerState) (p1 p2 : Point3)
    (hsel : s.selected_points = [p1]) :
    on_point_picked s p2 =
      { state := { s with
          selected_points := [],
          last_drawn_line := some s.next_actor,
          plotter_actors := applyOps s.plotter_actors
            ((match s.last_drawn_line with
              | some a => [PlotterOp.removeActor a]
              | none => []) ++ [PlotterOp.addLine s.next_actor]),
          next_actor := s.next_actor + 1 },
        report := some (pyRound3 |SCALING_FACTOR * (p2.z - p1.z)|),
        ops := (match s.last_drawn_line with
          | some a => [PlotterOp.removeActor a]
          | none => []) ++ [PlotterOp.addLine s.next_actor] } := by
  simp [on_point_picked, hsel]

/-- C3: at every externally observable point at most one pick survives a
callback (so the pending sequence never exceeds 2 entries) and at most
one measurement-line actor is live; completing a pair clears the pending
picks in the same operation, so a third pick starts a fresh pair; and at
every intermediate point of the remove/add sequence of lines 219-222 at
most one line actor exists (the old marker is removed before the new one
is added).  The invariant holds initially and is preserved by every
session operation. -/
theorem C3_single_marker_invariants :
    session_inv initial_viewer_state ∧
    (∀ (s : ViewerState) (p : Point3), session_inv s →
        session_inv (on_point_picked s p).state ∧
        (on_point_picked s p).state.selected_points.length ≤ 2 ∧
        (∀ k, (applyOps s.plotter_actors
            ((on_point_picked s p).ops.take k)).length ≤ 1)) ∧
    (∀ (s : ViewerState) (p1 p2 p3 : Point3), s.selected_points = [p1] →
        (on_point_picked s p2).state.selected_points = [] ∧
        (on_point_picked (on_point_picked s p2).state p3).state.selected_points =
          [p3]) ∧
    (∀ (s : ViewerState) (step : Int) (msg : Str), session_inv s →
        session_inv (navigate_las_files s step msg).1) ∧
    (∀ s : ViewerState, session_inv s → session_inv (clear_all_files s)) ∧
    (∀ (s : ViewerState) (newData : List LASRecord), session_inv s →
        session_inv (select_folder_and_load s newData)) := by
  refine ⟨?_, ?_, ?_, ?_, ?_, ?_⟩
  · exact ⟨by simp [initial_viewer_state], by simp [initial_viewer_state],
      by simp [initial_viewer_state]⟩
  · intro s p hinv
    obtain ⟨h1, h2, h3⟩ := hinv
    rcases hsel : s.selected_points with _ | ⟨q, t⟩
    · rw [pick_of_nil s p hsel]
      refine ⟨⟨by simp, h2, h3⟩, by simp, ?_⟩
      intro k
      simpa [applyOps] using h2
    · have ht : t = [] := by
        rw [hsel] at h1
        simp only [List.length_cons] at h1
        exact List.eq_nil_of_length_eq_zero (by omega)
      subst ht
      have hact : s.plotter_actors = [] ∨
          ∃ i, s.last_drawn_line = some i ∧ s.plotter_actors = [i] :=
        actors_shape s ⟨h1, h2, h3⟩
      rw [pick_of_single s q p hsel]
      rcases hline : s.last_drawn_line with _ | i
      · have hpa : s.plotter_actors = [] := by
          rcases hact with hpa | ⟨i, hli, hpa⟩
          · exact hpa
          · rw [hline] at hli
            cases hli
        refine ⟨⟨by simp, ?_, ?_⟩, by simp, ?_⟩
        · simp [hline, hpa, applyOps, applyOp]
        · intro a ha
          simp only [hline, hpa] at ha
          simp [applyOps, applyOp] at ha
          simp [ha]
        · intro k
          match k with
          | 0 => simpa [applyOps] using h2
          | Nat.succ k' =>
            simp [hline, hpa, applyOps, applyOp, List.take_succ_cons]
      · have hpa : s.plotter_actors = [] ∨ s.plotter_actors = [i] := by
          rcases hact with hpa | ⟨j, hli, hpa⟩
          · exact Or.inl hpa
          · rw [hline] at hli
            injection hli with hji
            subst hji
            exact Or.inr hpa
        have herase : s.plotter_actors.erase i = [] := by
          rcases hpa with hpa | hpa <;> simp [hpa]
        refine ⟨⟨by simp, ?_, ?_⟩, by simp, ?_⟩
        · simp [hline, applyOps, applyOp, herase]
        · intro a ha
          simp only [hline] at ha
          simp [applyOps, applyOp, herase] at ha
          simp [ha]
        · intro k
          match k with
          | 0 => simpa [applyOps] using h2
          | 1 =>
            simp [hline, applyOps, applyOp, List.take_succ_cons, herase]
          | Nat.succ (Nat.succ k') =>
            simp [hline, applyOps, applyOp, List.take_succ_cons, herase]
  · intro s p1 p2 p3 hsel
    have hp2 := pick_of_single s p1 p2 hsel
    refine ⟨by rw [hp2], ?_⟩
    rw [hp2, pick_of_nil _ p3 rfl]
  · intro s step msg hinv
    simp only [navigate_las_files]
    split_ifs
    · exact hinv
    · exact ⟨hinv.1, by simp [update_plot, clear_all_files],
        by simp [update_plot, clear_all_files]⟩
    · exact hinv
    · exact ⟨hinv.1, by simp [update_plot, clear_all_files],
        by simp [update_plot, clear_all_files]⟩
    · exact hinv
  · intro s hinv
    exact ⟨hinv.1, by simp [clear_all_files, update_plot],
      by simp [clear_all_files, update_plot]⟩
  · intro s newData hinv
    cases newData with
    | nil => exact ⟨hinv.1, hinv.2.1, hinv.2.2⟩
    | cons r rest =>
      exact ⟨hinv.1, by simp [select_folder_and_load, update_plot],
        by simp [select_folder_and_load, update_plot]⟩

/-- A session state with one pending pick and one live measurement line. -/
def c3State : ViewerState :=
  { las_data := []
    visible_files := ∅
    selected_points := [⟨0, 0, 0⟩]
    last_drawn_line := some 0
    plotter_actors := [0]
    next_actor := 1 }

/-- Witness for C3: from a one-pick one-marker state, a completing pick
preserves the invariant and keeps the pending sequence within bounds. -/
theorem C3_single_marker_invariants_witness :
    session_inv c3State ∧
    session_inv (on_point_picked c3State ⟨0, 0, 5⟩).state ∧
    (on_point_picked c3State ⟨0, 0, 5⟩).state.selected_points.length ≤ 2 := by
  have hinv : session_inv c3State := ⟨by decide, by decide, by decide⟩
  have h := C3_single_marker_invariants.2.1 c3State ⟨0, 0, 5⟩ hinv
  exact ⟨hinv, h.1, h.2.1⟩

theorem adjComp_bounds {mn mx v : ℚ} (hlt : mn < mx) (hle1 : mn ≤ v)
    (hle2 : v ≤ mx) : 0.2 ≤ adjComp mn mx v ∧ adjComp mn mx v ≤ 0.8 := by
  have hd : 0 < mx - mn := sub_pos.mpr hlt
  have ht0 : 0 ≤ (v - mn) / (mx - mn) := div_nonneg (by linarith) (le_of_lt hd)
  have ht1 : (v - mn) / (mx - mn) ≤ 1 := (div_le_one hd).mpr (by linarith)
  unfold adjComp
  constructor <;> nlinarith

theorem adjComp_at_min (mn mx : ℚ) : adjComp mn mx mn = 0.2 := by
  simp [adjComp]

theorem adjComp_at_max {mn mx : ℚ} (hne : mx - mn ≠ 0) :
    adjComp mn mx mx = 0.8 := by
  unfold adjComp
  rw [div_self hne]
  norm_num

theorem npMin_le_npMax {l : List ℚ} (h : l ≠ []) : npMin l ≤ npMax l :=
  le_npMax (npMin_mem h)

/-- C4: whenever a load builds an RGB color attribute and every channel's
observed per-file minimum and maximum differ, all produced components lie
in `[0.2, 0.8]`, the attribute is exactly the per-channel rescaling
`rgbAdjusted` of lines 40-45, component `i` of the output corresponds to
component `i` of the input, the input carrying a channel's minimum maps
to exactly `0.2` and the maximum to exactly `0.8`, and both extremes are
attained by some input value. -/
theorem C4_rgb_band (f : LASFile) (cs : List (Nat × Nat × Nat))
    (c : PointCloud)
    (hcol : f.colors = some cs)
    (hload : load_las_file f = Except.ok (c, true))
    (h1 : npMin (chan1 (rgbColors cs)) ≠ npMax (chan1 (rgbColors cs)))
    (h2 : npMin (chan2 (rgbColors cs)) ≠ npMax (chan2 (rgbColors cs)))
    (h3 : npMin (chan3 (rgbColors cs)) ≠ npMax (chan3 (rgbColors cs))) :
    c.colorsAttr = some (rgbAdjusted cs) ∧
    (∀ t ∈ rgbAdjusted cs,
        0.2 ≤ t.1 ∧ t.1 ≤ 0.8 ∧ 0.2 ≤ t.2.1 ∧ t.2.1 ≤ 0.8 ∧
        0.2 ≤ t.2.2 ∧ t.2.2 ≤ 0.8) ∧
    (∀ i t a, (rgbColors cs).get? i = some t →
        (rgbAdjusted cs).get? i = some a →
        ((t.1 = npMin (chan1 (rgbColors cs)) → a.1 = 0.2) ∧
         (t.1 = npMax (chan1 (rgbColors cs)) → a.1 = 0.8) ∧
         (t.2.1 = npMin (chan2 (rgbColors cs)) → a.2.1 = 0.2) ∧
         (t.2.1 = npMax (chan2 (rgbColors cs)) → a.2.1 = 0.8) ∧
         (t.2.2 = npMin (chan3 (rgbColors cs)) → a.2.2 = 0.2) ∧
         (t.2.2 = npMax (chan3 (rgbColors cs)) → a.2.2 = 0.8))) ∧
    npMin (chan1 (rgbColors cs)) ∈ chan1 (rgbColors cs) ∧
    npMax (chan1 (rgbColors cs)) ∈ chan1 (rgbColors cs) ∧
    npMin (chan2 (rgbColors cs)) ∈ chan2 (rgbColors cs) ∧
    npMax (chan2 (rgbColors cs)) ∈ chan2 (rgbColors cs) ∧
    npMin (chan3 (rgbColors cs)) ∈ chan3 (rgbColors cs) ∧
    npMax (chan3 (rgbColors cs)) ∈ chan3 (rgbColors cs) := by
  have hex : c.colorsAttr = some (rgbAdjusted cs) ∧ cs ≠ [] := by
    simp only [load_las_file, hcol] at hload
    by_cases hsh : f.X.length = f.Y.length ∧ f.Y.length = f.Z.length
    · rw [if_pos hsh] at hload
      by_cases hempty : (buildPoints f).length = 0
      · rw [if_pos hempty] at hload
        cases hload
      · rw [if_neg hempty] at hload
        by_cases hcs : cs.length = (buildPoints f).length
        · rw [if_pos hcs] at hload
          injection hload with hl1
          injection hl1 with hc hb
          subst hc
          refine ⟨rfl, ?_⟩
          intro hnil
          rw [hnil] at hcs
          simp only [List.length_nil] at hcs
          exact hempty hcs.symm
        · rw [if_neg hcs] at hload
          cases hload
    · rw [if_neg hsh] at hload
      cases hload
  obtain ⟨hattr, hne⟩ := hex
  have hch1 : chan1 (rgbColors cs) ≠ [] := by simp [chan1, rgbColors, hne]
  have hch2 : chan2 (rgbColors cs) ≠ [] := by simp [chan2, rgbColors, hne]
  have hch3 : chan3 (rgbColors cs) ≠ [] := by simp [chan3, rgbColors, hne]
  have hlt1 : npMin (chan1 (rgbColors cs)) < npMax (chan1 (rgbColors cs)) :=
    lt_of_le_of_ne (npMin_le_npMax hch1) h1
  have hlt2 : npMin (chan2 (rgbColors cs)) < npMax (chan2 (rgbColors cs)) :=
    lt_of_le_of_ne (npMin_le_npMax hch2) h2
  have hlt3 : npMin (chan3 (rgbColors cs)) < npMax (chan3 (rgbColors cs)) :=
    lt_of_le_of_ne (npMin_le_npMax hch3) h3
  refine ⟨hattr, ?_, ?_, npMin_mem hch1, npMax_mem hch1, npMin_mem hch2,
    npMax_mem hch2, npMin_mem hch3, npMax_mem hch3⟩
  · intro t ht
    rw [rgbAdjusted] at ht
    rcases List.mem_map.mp ht with ⟨u, hu, hut⟩
    subst hut
    have hu1 : u.1 ∈ chan1 (rgbColors cs) := List.mem_map_of_mem _ hu
    have hu2 : u.2.1 ∈ chan2 (rgbColors cs) := List.mem_map_of_mem _ hu
    have hu3 : u.2.2 ∈ chan3 (rgbColors cs) := List.mem_map_of_mem _ hu
    have hb1 := adjComp_bounds hlt1 (npMin_le hu1) (le_npMax hu1)
    have hb2 := adjComp_bounds hlt2 (npMin_le hu2) (le_npMax hu2)
    have hb3 := adjComp_bounds hlt3 (npMin_le hu3) (le_npMax hu3)
    exact ⟨hb1.1, hb1.2, hb2.1, hb2.2, hb3.1, hb3.2⟩
  · intro i t a hti hai
    rw [rgbAdjusted] at hai
    rw [List.get?_map, hti] at hai
    injection hai with ha
    subst ha
    refine ⟨fun hmin => ?_, fun hmax => ?_, fun hmin => ?_, fun hmax => ?_,
      fun hmin => ?_, fun hmax => ?_⟩
    · simp only [hmin]
      exact adjComp_at_min _ _
    · simp only [hmax]
      exact adjComp_at_max (sub_ne_zero.mpr (ne_of_gt hlt1))
    · simp only [hmin]
      exact adjComp_at_min _ _
    · simp only [hmax]
      exact adjComp_at_max (sub_ne_zero.mpr (ne_of_gt hlt2))
    · simp only [hmin]
      exact adjComp_at_min _ _
    · simp only [hmax]
      exact adjComp_at_max (sub_ne_zero.mpr (ne_of_gt hlt3))

/-- RGB LAS file with full-range channels (0 and 255 in each channel). -/
def c4File : LASFile :=
  { X := [0, 1], Y := [0, 1], Z := [0, 1]
    scaleX := 1, scaleY := 1, scaleZ := 1
    offsetX := 0, offsetY := 0, offsetZ := 0
    colors := some [(0, 0, 0), (255, 255, 255)] }

/-- Witness for C4: loading `c4File` produces the adjusted color
attribute and all its components lie inside the `[0.2, 0.8]` band. -/
theorem C4_rgb_band_witness :
    load_las_file c4File =
      Except.ok ({ points := buildPoints c4File,
                   colorsAttr := some (rgbAdjusted [(0, 0, 0), (255, 255, 255)]),
                   elevationAttr := none }, true) ∧
    ∀ t ∈ rgbAdjusted [(0, 0, 0), (255, 255, 255)],
        0.2 ≤ t.1 ∧ t.1 ≤ 0.8 ∧ 0.2 ≤ t.2.1 ∧ t.2.1 ≤ 0.8 ∧
        0.2 ≤ t.2.2 ∧ t.2.2 ≤ 0.8 := by
  have hload : load_las_file c4File =
      Except.ok ({ points := buildPoints c4File,
                   colorsAttr := some (rgbAdjusted [(0, 0, 0), (255, 255, 255)]),
                   elevationAttr := none }, true) := by
    simp [load_las_file, c4File, buildPoints]
  have h1 : npMin (chan1 (rgbColors [(0, 0, 0), (255, 255, 255)])) ≠
      npMax (chan1 (rgbColors [(0, 0, 0), (255, 255, 255)])) := by
    simp [npMin, npMax, chan1, rgbColors]
  have h2 : npMin (chan2 (rgbColors [(0, 0, 0), (255, 255, 255)])) ≠
      npMax (chan2 (rgbColors [(0, 0, 0), (255, 255, 255)])) := by
    simp [npMin, npMax, chan2, rgbColors]
  have h3 : npMin (chan3 (rgbColors [(0, 0, 0), (255, 255, 255)])) ≠
      npMax (chan3 (rgbColors [(0, 0, 0), (255, 255, 255)])) := by
    simp [npMin, npMax, chan3, rgbColors]
  exact ⟨hload, (C4_rgb_band c4File _ _ rfl hload h1 h2 h3).2.1⟩

theorem visible_index_lt (s : ViewerState) {i : Nat}
    (h : i ∈ get_visible_file_indexes s) : i < s.las_data.length := by
  simp only [get_visible_file_indexes, List.mem_filter, List.mem_range] at h
  exact h.1

theorem visible_nonempty_of_indexes (s : ViewerState)
    (h : get_visible_file_indexes s ≠ []) : s.visible_files ≠ ∅ := by
  rcases hl : get_visible_file_indexes s with _ | ⟨i, t⟩
  · exact absurd hl h
  · have hi : i ∈ get_visible_file_indexes s := by
      rw [hl]
      exact List.mem_cons_self i t
    simp only [get_visible_file_indexes, List.mem_filter, List.mem_range,
      decide_eq_true_eq] at hi
    exact Finset.ne_empty_of_mem hi.2

/-- C1: with at least one visible record, `next` anchors at the maximum
index `m` of a visible record (`previous` at the minimum): when `m + 1`
(resp. `m - 1`) is a valid record index the operation ends with the
visible set being exactly the record at that index (all other visibility
cleared) and reports a move; otherwise it reports the "last"/"first"
boundary dialog and the state is unchanged. -/
theorem C1_navigation (s : ViewerState)
    (h : get_visible_file_indexes s ≠ []) :
    ((pyMaxNat (get_visible_file_indexes s) ∈ get_visible_file_indexes s ∧
      ∀ i ∈ get_visible_file_indexes s,
        i ≤ pyMaxNat (get_visible_file_indexes s)) ∧
     (pyMaxNat (get_visible_file_indexes s) + 1 < s.las_data.length →
        next_las_file s =
          ({ s with
              visible_files := {(s.las_data.getD
                (pyMaxNat (get_visible_file_indexes s) + 1) defaultRecord).1},
              plotter_actors := [] }, NavResult.moved)) ∧
     (¬ pyMaxNat (get_visible_file_indexes s) + 1 < s.las_data.length →
        next_las_file s = (s, NavResult.boundary (("last").data)))) ∧
    ((pyMinNat (get_visible_file_indexes s) ∈ get_visible_file_indexes s ∧
      ∀ i ∈ get_visible_file_indexes s,
        pyMinNat (get_visible_file_indexes s) ≤ i) ∧
     (1 ≤ pyMinNat (get_visible_file_indexes s) →
        previous_las_file s =
          ({ s with
              visible_files := {(s.las_data.getD
                (pyMinNat (get_visible_file_indexes s) - 1) defaultRecord).1},
              plotter_actors := [] }, NavResult.moved)) ∧
     (pyMinNat (get_visible_file_indexes s) = 0 →
        previous_las_file s = (s, NavResult.boundary (("first").data)))) := by
  have hvis := visible_nonempty_of_indexes s h
  constructor
  · refine ⟨⟨pyMaxNat_mem h, fun i hi => le_pyMaxNat hi⟩, ?_, ?_⟩
    · intro hlt
      simp only [next_las_file, navigate_las_files]
      rw [if_neg hvis, if_pos (by norm_num : (0 : Int) < 1),
        if_pos (⟨by positivity,
          (by exact_mod_cast hlt :
            (pyMaxNat (get_visible_file_indexes s) : Int) + 1 <
              (s.las_data.length : Int))⟩ :
          0 ≤ (pyMaxNat (get_visible_file_indexes s) : Int) + 1 ∧
            (pyMaxNat (get_visible_file_indexes s) : Int) + 1 <
              (s.las_data.length : Int))]
      have htn : ((pyMaxNat (get_visible_file_indexes s) : Int) + 1).toNat =
          pyMaxNat (get_visible_file_indexes s) + 1 := by omega
      rw [htn]
      simp [update_plot, clear_all_files]
    · intro hnlt
      simp only [next_las_file, navigate_las_files]
      rw [if_neg hvis, if_pos (by norm_num : (0 : Int) < 1), if_neg]
      rintro ⟨-, hc⟩
      exact hnlt (by exact_mod_cast hc)
  · refine ⟨⟨pyMinNat_mem h, fun i hi => pyMinNat_le hi⟩, ?_, ?_⟩
    · intro hge
      have hmlt : pyMinNat (get_visible_file_indexes s) < s.las_data.length :=
        visible_index_lt s (pyMinNat_mem h)
      simp only [previous_las_file, navigate_las_files]
      rw [if_neg hvis, if_neg (by norm_num : ¬ (0 : Int) < -1),
        if_pos (⟨by omega,
          (by omega :
            (pyMinNat (get_visible_file_indexes s) : Int) + -1 <
              (s.las_data.length : Int))⟩ :
          0 ≤ (pyMinNat (get_visible_file_indexes s) : Int) + -1 ∧
            (pyMinNat (get_visible_file_indexes s) : Int) + -1 <
              (s.las_data.length : Int))]
      have htn : ((pyMinNat (get_visible_file_indexes s) : Int) + -1).toNat =
          pyMinNat (get_visible_file_indexes s) - 1 := by omega
      rw [htn]
      simp [update_plot, clear_all_files]
    · intro hzero
      simp only [previous_las_file, navigate_las_files]
      rw [if_neg hvis, if_neg (by norm_num : ¬ (0 : Int) < -1), if_neg]
      rintro ⟨hc, -⟩
      rw [hzero] at hc
      omega

/-- Two-record session with the first record visible. -/
def c1State : ViewerState :=
  { las_data := [(("a").data, ⟨[], none, none⟩, false),
                 (("b").data, ⟨[], none, none⟩, false)]
    visible_files := {("a").data}
    selected_points := []
    last_drawn_line := none
    plotter_actors := []
    next_actor := 0 }

/-- Witness for C1: from `c1State` (record 0 visible out of 2), `next`
moves to exactly record 1. -/
theorem C1_navigation_witness :
    get_visible_file_indexes c1State ≠ [] ∧
    next_las_file c1State =
      ({ c1State with visible_files := {("b").data}, plotter_actors := [] },
        NavResult.moved) := by
  have h : get_visible_file_indexes c1State ≠ [] := by decide
  refine ⟨h, ?_⟩
  have hmv := (C1_navigation c1State h).1.2.1 (by decide)
  exact hmv.trans (by decide)
